import Mathlib

/-!
Verification of the wio-bank-challenge transaction pipeline.

This file gives a shallow embedding, in Lean 4, of the parts of the code base
that the verified properties talk about:

* `src/services/transaction_extractor.py` (regex-driven line and table parsing,
  deduplication),
* `src/services/categorizer.py` (staged categorization),
* `src/services/anomaly_detector.py` (batch gate, per-detector findings,
  score-based deduplication),
* `src/services/reminder_service.py` (payoff amortization loop).

Strings are modelled as `List Char`, Python floats as `ℚ` (the numeric
computations involved are exact decimal arithmetic), Python `None`-able values
as `Option`.  External library calls (`dateparser.parse`, the Python `float`
constructor, spaCy, scikit-learn) are modelled as oracle parameters: the
theorems quantify over them, and the concrete instantiations used in witnesses
are stated explicitly.

The Python `re` searches are embedded by a small backtracking matcher over
`List Char` which reproduces `re`'s leftmost search order and greedy
backtracking for the pattern constructs actually used by the code
(character classes, bounded and unbounded greedy repetition, option,
alternation of literals, one capture group per pattern).
-/

namespace WioBank

/-! ## A tiny backtracking regex matcher

A `Matcher` sends a string to the list of possible remainders after a match,
in Python `re` backtracking preference order (greedy first). -/

abbrev Matcher : Type := List Char → List (List Char)

/-- The empty pattern: matches nothing, consumes nothing. -/
def meps : Matcher := fun s => [s]

/-- A single character satisfying a (decidable) character class. -/
def mcls (p : Char → Bool) : Matcher := fun s =>
  match s with
  | [] => []
  | c :: cs => if p c then [cs] else []

/-- Sequencing of matchers; candidate remainders are explored in
backtracking order, exactly as Python `re` does. -/
def mseq (a b : Matcher) : Matcher := fun s => (a s).flatMap b

/-- Greedy option (`x?`): try consuming first, then the empty alternative. -/
def mopt (a : Matcher) : Matcher := fun s => a s ++ [s]

/-- Ordered alternation (`x|y`). -/
def malt (a b : Matcher) : Matcher := fun s => a s ++ b s

/-- Length of the maximal run of characters of class `p` at the front. -/
def runLen (p : Char → Bool) (s : List Char) : Nat := (s.takeWhile p).length

/-- Greedy bounded repetition of a character class, `p{lo,hi}`:
candidate remainders after consuming `min hi run`, …, down to `lo`
characters. -/
def mrepB (p : Char → Bool) (lo hi : Nat) : Matcher := fun s =>
  let r := min (runLen p s) hi
  if r < lo then []
  else (List.range (r + 1 - lo)).map (fun i => s.drop (r - i))

/-- Greedy unbounded repetition of a character class, `p{lo,}`
(`p+` is `lo = 1`, `p*` is `lo = 0`). -/
def mrepU (p : Char → Bool) (lo : Nat) : Matcher := fun s =>
  let r := runLen p s
  if r < lo then []
  else (List.range (r + 1 - lo)).map (fun i => s.drop (r - i))

/-- Case-insensitive literal, matching the `re.IGNORECASE` flag the code
passes to every search. -/
def mlit (lit : List Char) : Matcher := fun s =>
  if ((s.take lit.length).map Char.toLower) = (lit.map Char.toLower) ∧
      lit.length ≤ s.length then
    [s.drop lit.length]
  else []

/-- Greedy star of a matcher whose every match consumes at least one
character (the only starred group in the code is `(?:,\d{3})*`).  The fuel
is the string length, which bounds the possible number of iterations. -/
def mstarAux (a : Matcher) : Nat → Matcher
  | 0 => fun s => [s]
  | fuel + 1 => fun s => ((a s).flatMap (mstarAux a fuel)) ++ [s]

def mstar (a : Matcher) : Matcher := fun s => mstarAux a s.length s

/-- First `some` produced by `f` along a list, in order. -/
def firstSome : List α → (α → Option β) → Option β
  | [], _ => none
  | a :: l, f =>
    match f a with
    | some b => some b
    | none => firstSome l f

/-- Try a full pattern `pre (grp) post` at the current position; return the
text consumed by the capture group of the first successful backtracking
branch, in Python preference order. -/
def matchCaptureAt (pre grp post : Matcher) (s : List Char) : Option (List Char) :=
  firstSome (pre s) fun r1 =>
    firstSome (grp r1) fun r2 =>
      if (post r2).isEmpty then none
      else some (r1.take (r1.length - r2.length))

/-- Model of `re.search` with one capture group: scan start positions left to right
(Python's leftmost-match rule), and at the first position admitting a match
return the group of the preferred branch. -/
def searchCapture (pre grp post : Matcher) : List Char → Option (List Char)
  | [] => matchCaptureAt pre grp post []
  | c :: rest =>
    match matchCaptureAt pre grp post (c :: rest) with
    | some cap => some cap
    | none => searchCapture pre grp post rest

/-- Like `matchCaptureAt` but also returns the remainder after the whole
match, for `re.findall`'s continue-after-match behaviour. -/
def matchAllAt (pre grp post : Matcher) (s : List Char) :
    Option (List Char × List Char) :=
  firstSome (pre s) fun r1 =>
    firstSome (grp r1) fun r2 =>
      firstSome (post r2) fun r3 =>
        some (r1.take (r1.length - r2.length), r3)

/-- Model of `re.findall` with one capture group: non-overlapping matches, scanning
left to right and resuming after each whole match.  The fuel is the string
length plus one, which suffices because every pattern passed to `findall`
in the code consumes at least one character. -/
def findallCapture (pre grp post : Matcher) : Nat → List Char → List (List Char)
  | 0, _ => []
  | _ + 1, [] =>
    match matchAllAt pre grp post [] with
    | some (cap, _) => [cap]
    | none => []
  | fuel + 1, c :: rest =>
    match matchAllAt pre grp post (c :: rest) with
    | some (cap, r3) => cap :: findallCapture pre grp post fuel r3
    | none => findallCapture pre grp post fuel rest

/-- Model of a `re.match(p + r'$', w)`-style anchored full match (used for the
word filters, whose patterns are written with explicit `^`/`$`). -/
def fullMatch (m : Matcher) (s : List Char) : Bool :=
  (m s).any (fun r => r.isEmpty)

/-! ### Character classes used by the patterns -/

/-- Python `\d` (the inputs are ASCII). -/
def pyDigit (c : Char) : Bool := c.isDigit

/-- Python `\w` with ASCII inputs: letters, digits, underscore. -/
def pyWord (c : Char) : Bool := c.isAlphanum || c = '_'

/-- Python `\s`. -/
def pySpace (c : Char) : Bool :=
  c = ' ' || c = '\t' || c = '\n' || c = '\r' || c = '\x0b' || c = '\x0c'

/-- The `[\/\-]` separator class of the date patterns. -/
def dateSep (c : Char) : Bool := c = '/' || c = '-'

/-! ## `src/services/transaction_extractor.py`

`TransactionExtractor.transaction_patterns`: each Python pattern is given as
the triple `(pre, group, post)` of its parts before, inside and after the
single capture group. -/

/-- The number group `(\d{1,3}(?:,\d{3})*(?:\.\d{2})?)`, shared by all four
amount patterns. -/
def numGroup : Matcher :=
  mseq (mrepB pyDigit 1 3)
    (mseq (mstar (mseq (mcls (· = ',')) (mrepB pyDigit 3 3)))
      (mopt (mseq (mcls (· = '.')) (mrepB pyDigit 2 2))))

/-- Date pattern 1: `(\d{1,2}[\/\-]\d{1,2}[\/\-]\d{2,4})`. -/
def datePat1 : Matcher :=
  mseq (mrepB pyDigit 1 2)
    (mseq (mcls dateSep)
      (mseq (mrepB pyDigit 1 2)
        (mseq (mcls dateSep) (mrepB pyDigit 2 4))))

/-- Date pattern 2: `(\d{4}[\/\-]\d{1,2}[\/\-]\d{1,2})`. -/
def datePat2 : Matcher :=
  mseq (mrepB pyDigit 4 4)
    (mseq (mcls dateSep)
      (mseq (mrepB pyDigit 1 2)
        (mseq (mcls dateSep) (mrepB pyDigit 1 2))))

/-- Date pattern 3: `(\w{3}\s+\d{1,2},?\s+\d{4})`. -/
def datePat3 : Matcher :=
  mseq (mrepB pyWord 3 3)
    (mseq (mrepU pySpace 1)
      (mseq (mrepB pyDigit 1 2)
        (mseq (mopt (mcls (· = ',')))
          (mseq (mrepU pySpace 1) (mrepB pyDigit 4 4)))))

/-- Date pattern 4: `(\d{1,2}\s+\w{3}\s+\d{4})`. -/
def datePat4 : Matcher :=
  mseq (mrepB pyDigit 1 2)
    (mseq (mrepU pySpace 1)
      (mseq (mrepB pyWord 3 3)
        (mseq (mrepU pySpace 1) (mrepB pyDigit 4 4))))

/-- Model of `transaction_patterns['date']`: the four date patterns, searched in
order; the first one with a match anywhere in the line supplies `group(1)`.
This models the `for pattern ... if match: break` loop of
`parse_transaction_line` and, via `Option.isSome`, the
`any(re.search(...))` of `is_transaction_line`. -/
def findDateCapture (line : List Char) : Option (List Char) :=
  firstSome
    [searchCapture meps datePat1 meps,
     searchCapture meps datePat2 meps,
     searchCapture meps datePat3 meps,
     searchCapture meps datePat4 meps]
    (fun f => f line)

/-- Amount pattern 1: `\$(\d{1,3}(?:,\d{3})*(?:\.\d{2})?)`. -/
def amountCapture1 : List Char → Option (List Char) :=
  searchCapture (mcls (· = '$')) numGroup meps

/-- Amount pattern 2:
`(\d{1,3}(?:,\d{3})*(?:\.\d{2})?)\s*(?:USD|dollars?)` (IGNORECASE). -/
def amountCapture2 : List Char → Option (List Char) :=
  searchCapture meps numGroup
    (mseq (mrepU pySpace 0)
      (malt (mlit ['U', 'S', 'D'])
        (mseq (mlit ['d', 'o', 'l', 'l', 'a', 'r']) (mopt (mcls (fun c => c.toLower = 's'))))))

/-- Amount pattern 3: `(\d{1,3}(?:,\d{3})*(?:\.\d{2})?)\s*CR`. -/
def amountCapture3 : List Char → Option (List Char) :=
  searchCapture meps numGroup (mseq (mrepU pySpace 0) (mlit ['C', 'R']))

/-- Amount pattern 4: `(\d{1,3}(?:,\d{3})*(?:\.\d{2})?)\s*DR`. -/
def amountCapture4 : List Char → Option (List Char) :=
  searchCapture meps numGroup (mseq (mrepU pySpace 0) (mlit ['D', 'R']))

/-- Model of `transaction_patterns['amount']`, searched in order with
first-match-wins, as in both `is_transaction_line` and
`parse_transaction_line`. -/
def findAmountCapture (line : List Char) : Option (List Char) :=
  firstSome
    [amountCapture1, amountCapture2, amountCapture3, amountCapture4]
    (fun f => f line)

/-- Model of `TransactionExtractor.is_transaction_line`: a line qualifies iff some
date pattern and some amount pattern both match (`has_date and has_amount`). -/
def isTransactionLine (line : List Char) : Bool :=
  (findDateCapture line).isSome && (findAmountCapture line).isSome

/-- A transaction candidate: the dict built by `parse_transaction_line` /
`parse_table_fields`, with absent keys as `none`.  Parsed dates
(`dateparser.parse` results) are abstracted as integers. -/
structure Txn where
  raw_text : List Char := []
  line_number : Option Nat := none
  date : Option Int := none
  date_string : Option (List Char) := none
  amount : Option ℚ := none
  merchant : Option (List Char) := none
  description : Option (List Char) := none
  additional_description : Option (List Char) := none
  table_fields : Option (List (List Char)) := none
  deriving DecidableEq

/-- Model of `amount_match.replace(',', '')`. -/
def stripCommas (s : List Char) : List Char := s.filter (· ≠ ',')

/-- Merchant pattern 1: `([A-Z][A-Z0-9\s&\-\.])` body class under
IGNORECASE: letters, digits, whitespace, `&`, `-`, `.`. -/
def merchCls (c : Char) : Bool :=
  c.isAlpha || c.isDigit || pySpace c || c = '&' || c = '-' || c = '.'

/-- Model of `re.findall(r'([A-Z][A-Z0-9\s&\-\.]{3,30})', line, re.IGNORECASE)`. -/
def merchantMatches1 (line : List Char) : List (List Char) :=
  findallCapture meps (mseq (mcls Char.isAlpha) (mrepB merchCls 3 30)) meps
    (line.length + 1) line

/-- Model of `re.findall(r'([A-Za-z0-9\s&\-\.]{3,30})\s+\d{1,2}[\/\-]\d{1,2}', line,
re.IGNORECASE)`. -/
def merchantMatches2 (line : List Char) : List (List Char) :=
  findallCapture meps (mrepB merchCls 3 30)
    (mseq (mrepU pySpace 1)
      (mseq (mrepB pyDigit 1 2)
        (mseq (mcls dateSep) (mrepB pyDigit 1 2))))
    (line.length + 1) line

/-- Python `max(candidates, key=len)`: the first candidate of maximal
length (later candidates replace only on strictly greater length). -/
def maxByLen (first : List Char) (rest : List (List Char)) : List Char :=
  rest.foldl (fun best c => if best.length < c.length then c else best) first

/-- Python `str.strip()`. -/
def stripWs (s : List Char) : List Char :=
  ((s.dropWhile pySpace).reverse.dropWhile pySpace).reverse

/-- The merchant step of `parse_transaction_line`: collect all candidates
from both patterns, take the longest (first wins ties), strip whitespace,
keep it only when longer than 2 characters. -/
def merchantOfLine (line : List Char) : Option (List Char) :=
  match merchantMatches1 line ++ merchantMatches2 line with
  | [] => none
  | c :: cs =>
    let merchant := stripWs (maxByLen c cs)
    if 2 < merchant.length then some merchant else none

/-- Model of the `^\d+[\/\-]\d+[\/\-]\d+$` test (word filter in the description steps). -/
def isDateLikeWord (w : List Char) : Bool :=
  fullMatch
    (mseq (mrepU pyDigit 1)
      (mseq (mcls dateSep)
        (mseq (mrepU pyDigit 1)
          (mseq (mcls dateSep) (mrepU pyDigit 1))))) w

/-- Model of the `^\$?\d+[\.,]\d+$` test (word filter in the description steps). -/
def isAmountLikeWord (w : List Char) : Bool :=
  fullMatch
    (mseq (mopt (mcls (· = '$')))
      (mseq (mrepU pyDigit 1)
        (mseq (mcls (fun c => c = '.' || c = ','))
          (mrepU pyDigit 1)))) w

/-- Python `line.split()`: split on whitespace runs, dropping empty parts. -/
def splitWords (line : List Char) : List (List Char) :=
  (line.splitOnP pySpace).filter (fun w => ¬ w.isEmpty)

/-- The description word filter shared by both parsers: keep words that are
neither date-shaped nor amount-shaped and are longer than 2 characters. -/
def keepDescriptionWord (w : List Char) : Bool :=
  ¬ isDateLikeWord w && ¬ isAmountLikeWord w && 2 < w.length

/-- Python `' '.join(parts)`. -/
def joinSpace (parts : List (List Char)) : List Char :=
  List.intercalate [' '] parts

/-- The description step of `parse_transaction_line`: filtered words,
first 10, space-joined; the key is set only when the list is nonempty. -/
def descriptionOfLine (line : List Char) : Option (List Char) :=
  let parts := (splitWords line).filter keepDescriptionWord
  if parts.isEmpty then none else some (joinSpace (parts.take 10))

/-- Oracle type for `dateparser.parse` (external library): `none` models a
failed parse, `some d` a parsed datetime, abstracted to an integer. -/
abbrev DateOracle : Type := List Char → Option Int

/-- Oracle type for the Python `float` constructor applied to an amount
string with the commas already removed: `none` models `ValueError`. -/
abbrev FloatOracle : Type := List Char → Option ℚ

/-- The date step of `parse_transaction_line`: first matching date
pattern's group; `dateparser.parse` success sets `date`, failure sets
`date_string`. -/
def applyDateStep (dp : DateOracle) (line : List Char) (t : Txn) : Txn :=
  match findDateCapture line with
  | none => t
  | some dm =>
    match dp dm with
    | some d => { t with date := some d }
    | none => { t with date_string := some dm }

/-- The tail of `parse_transaction_line` after the amount step: merchant,
description, `additional_description` from the previous line, and the
final `'date' in transaction and 'amount' in transaction` guard. -/
def finishLine (allLines : List (List Char)) (lineIndex : Nat)
    (line : List Char) (t : Txn) : Option Txn :=
  let prev := allLines.getD (lineIndex - 1) []
  let t1 : Txn :=
    { t with merchant := merchantOfLine line,
             description := descriptionOfLine line }
  let t2 : Txn :=
    if 0 < lineIndex ∧ ¬ isTransactionLine prev ∧ 10 < prev.length then
      { t1 with additional_description := some prev }
    else t1
  if t2.date.isSome && t2.amount.isSome then some t2 else none

/-- Model of `parse_transaction_line` with the result of the amount-pattern search
as an explicit argument (the function below instantiates it with the real
search; keeping it explicit lets the error-handling property compare the
parse against the parse with the amount candidate absent).
A `none` from the float oracle is the `except ValueError: return None`
branch. -/
def parseLineFrom (pyFloat : FloatOracle) (dp : DateOracle)
    (line : List Char) (allLines : List (List Char)) (lineIndex : Nat)
    (amountMatch : Option (List Char)) : Option Txn :=
  let t : Txn := { raw_text := line, line_number := some lineIndex }
  let t := applyDateStep dp line t
  match amountMatch with
  | some am =>
    match pyFloat (stripCommas am) with
    | none => none
    | some a => finishLine allLines lineIndex line { t with amount := some a }
  | none => finishLine allLines lineIndex line t

/-- Model of `TransactionExtractor.parse_transaction_line`. -/
def parseTransactionLine (pyFloat : FloatOracle) (dp : DateOracle)
    (line : List Char) (allLines : List (List Char)) (lineIndex : Nat) :
    Option Txn :=
  parseLineFrom pyFloat dp line allLines lineIndex (findAmountCapture line)

/-- The table-field amount regex `\$?(\d{1,3}(?:,\d{3})*(?:\.\d{2})?)`. -/
def tableAmountCapture (field : List Char) : Option (List Char) :=
  searchCapture (mopt (mcls (· = '$'))) numGroup meps field

/-- The amount loop of `parse_table_fields`: first field whose regex match
parses as a float; a `ValueError` (`none` from the oracle) hits the
`continue` and moves on to the next field. -/
def amountFromFields (pyFloat : FloatOracle) : List (List Char) → Option ℚ
  | [] => none
  | f :: rest =>
    match tableAmountCapture f with
    | none => amountFromFields pyFloat rest
    | some c =>
      match pyFloat (stripCommas c) with
      | some a => some a
      | none => amountFromFields pyFloat rest

/-- The date loop of `parse_table_fields`: first field that `dateparser`
parses. -/
def dateFromFields (dp : DateOracle) : List (List Char) → Option Int
  | [] => none
  | f :: rest =>
    match dp f with
    | some d => some d
    | none => dateFromFields dp rest

/-- Model of `parse_table_fields` with the selected amount as an explicit argument
(the function below instantiates it with the amount loop). -/
def parseTableFrom (dp : DateOracle) (fields : List (List Char))
    (rawLine : List Char) (amount : Option ℚ) : Option Txn :=
  let t : Txn := { raw_text := rawLine, table_fields := some fields }
  let t := { t with date := dateFromFields dp fields }
  let t := { t with amount := amount }
  let descriptionFields := fields.filter keepDescriptionWord
  let t :=
    if descriptionFields.isEmpty then t
    else
      { t with
        description := some (joinSpace (descriptionFields.take 5)),
        merchant := descriptionFields.head? }
  if t.date.isSome && t.amount.isSome then some t else none

/-- Model of `TransactionExtractor.parse_table_fields`. -/
def parseTableFields (pyFloat : FloatOracle) (dp : DateOracle)
    (fields : List (List Char)) (rawLine : List Char) : Option Txn :=
  parseTableFrom dp fields rawLine (amountFromFields pyFloat fields)

/-- A concrete instantiation of the `float` oracle: the value of the
Python `float` constructor on the nonnegative decimal literals
(`digits`, `digits.digits`, `.digits`, `digits.`) that the amount captures
produce after comma removal; everything else is left as a failure.  On
these strings CPython's `float()` returns the IEEE double nearest to the
decimal value; the claims compare it against decimal literals that denote
the same double, so the exact rational value is the faithful comparison
point. -/
def digitsToNat (ds : List Char) : Nat :=
  ds.foldl (fun n c => 10 * n + (c.toNat - '0'.toNat)) 0

def parseDecimal (s : List Char) : Option ℚ :=
  match s.splitOn '.' with
  | [ip] =>
    if ¬ ip.isEmpty ∧ ip.all pyDigit then some (digitsToNat ip : ℚ) else none
  | [ip, fp] =>
    if ip.all pyDigit ∧ fp.all pyDigit ∧ (¬ ip.isEmpty ∨ ¬ fp.isEmpty) then
      some ((digitsToNat ip : ℚ) + (digitsToNat fp : ℚ) / (10 : ℚ) ^ fp.length)
    else none
  | _ => none

/-- The deduplication key of `deduplicate_transactions`:
`(transaction.get('date'), transaction.get('amount'),
transaction.get('merchant', '')[:20])`. -/
def dedupKey (t : Txn) : Option Int × Option ℚ × List Char :=
  (t.date, t.amount, (t.merchant.getD []).take 20)

/-- The loop of `deduplicate_transactions`, with the `seen` set as a list
of keys. -/
def dedupTransactionsAux (seen : List (Option Int × Option ℚ × List Char)) :
    List Txn → List Txn
  | [] => []
  | t :: ts =>
    if dedupKey t ∈ seen then dedupTransactionsAux seen ts
    else t :: dedupTransactionsAux (dedupKey t :: seen) ts

/-- Model of `TransactionExtractor.deduplicate_transactions`. -/
def deduplicateTransactions (l : List Txn) : List Txn :=
  dedupTransactionsAux [] l

/-- Modelled from the spec sentence on deduplication, for comparison with
the code: walk the candidates in order, keeping a candidate exactly when no
earlier candidate has an identical `(date, amount, merchant-prefix-20)`
key, so that exactly the first candidate of each key survives and input
order is preserved. -/
def specKeepFirstByKey (earlier : List Txn) : List Txn → List Txn
  | [] => []
  | t :: ts =>
    if ∀ u ∈ earlier, dedupKey u ≠ dedupKey t then
      t :: specKeepFirstByKey (earlier ++ [t]) ts
    else specKeepFirstByKey (earlier ++ [t]) ts

/-! ## `src/services/categorizer.py` -/

/-- Python `'needle' in haystack` substring test. -/
def containsSub (needle hay : List Char) : Bool :=
  hay.tails.any (fun t => needle.isPrefixOf t)

/-- One entry of the `self.categories` table.  The stored regex patterns
are embedded by their search denotation (a Boolean predicate on the
analyzed text): every built-in pattern has the form `.*word.*`, whose
`re.search` succeeds exactly when `word` occurs as a substring, and
`add_custom_rule` may append an arbitrary pattern, modelled as an
arbitrary predicate. -/
structure CatData where
  keywords : List (List Char)
  patterns : List (List Char → Bool)
  subcategories : List (List Char)

/-- The categorizer state: the `self.categories` insertion-ordered dict as
an association list. -/
abbrev Categories : Type := List (List Char × CatData)

/-- Observation: `re.search(r'.*word.*', text, re.IGNORECASE)` succeeds iff `word`
occurs in `text` up to case; the analyzed text is already lowercased by
`_extract_text_for_analysis` and the built-in pattern words are lowercase,
so the denotation of a built-in pattern is a substring test. -/
def patDen (word : List Char) : List Char → Bool :=
  fun text => containsSub word (text.map Char.toLower)

/-- A convenience for transcribing the keyword table. -/
def kws (l : List String) : List (List Char) := l.map String.toList

/-- The `self.categories` table built in `TransactionCategorizer.__init__`,
transcribed in insertion order. -/
def initCategories : Categories :=
  [("Food & Dining".toList,
    { keywords := kws ["restaurant", "food", "dining", "cafe", "pizza",
        "burger", "starbucks", "mcdonalds", "subway", "delivery", "takeout",
        "bar", "pub", "bakery", "grocery", "supermarket", "market",
        "whole foods", "safeway", "kroger"],
      patterns := [patDen "restaurant".toList, patDen "food".toList,
        patDen "cafe".toList, patDen "pizza".toList],
      subcategories := kws ["Restaurants", "Fast Food", "Groceries",
        "Coffee Shops", "Bars & Pubs"] }),
   ("Transportation".toList,
    { keywords := kws ["gas", "fuel", "shell", "chevron", "bp", "exxon",
        "mobil", "uber", "lyft", "taxi", "metro", "bus", "train", "parking",
        "toll", "car", "auto", "repair", "maintenance"],
      patterns := [patDen "gas".toList, patDen "fuel".toList,
        patDen "uber".toList, patDen "lyft".toList],
      subcategories := kws ["Gas & Fuel", "Ride Sharing", "Public Transit",
        "Parking", "Auto Repair"] }),
   ("Shopping".toList,
    { keywords := kws ["amazon", "walmart", "target", "costco", "best buy",
        "home depot", "lowes", "macys", "nordstrom", "clothing", "shoes",
        "electronics", "books", "toys", "home", "garden"],
      patterns := [patDen "amazon".toList, patDen "walmart".toList,
        patDen "target".toList],
      subcategories := kws ["Online Shopping", "Department Stores",
        "Electronics", "Clothing", "Home & Garden"] }),
   ("Entertainment".toList,
    { keywords := kws ["movie", "theater", "cinema", "netflix", "spotify",
        "apple music", "youtube", "game", "steam", "playstation", "xbox",
        "concert", "show", "ticket", "event"],
      patterns := [patDen "movie".toList, patDen "theater".toList,
        patDen "netflix".toList, patDen "spotify".toList],
      subcategories := kws ["Movies", "Streaming Services", "Gaming",
        "Concerts", "Events"] }),
   ("Health & Fitness".toList,
    { keywords := kws ["pharmacy", "cvs", "walgreens", "hospital",
        "doctor", "clinic", "medical", "gym", "fitness", "yoga", "health",
        "dental", "vision", "prescription"],
      patterns := [patDen "pharmacy".toList, patDen "medical".toList,
        patDen "gym".toList, patDen "fitness".toList],
      subcategories := kws ["Pharmacy", "Medical", "Fitness", "Dental",
        "Vision"] }),
   ("Bills & Utilities".toList,
    { keywords := kws ["electric", "electricity", "water", "gas",
        "utility", "phone", "internet", "cable", "verizon", "att",
        "tmobile", "comcast", "xfinity", "bill", "payment"],
      patterns := [patDen "electric".toList, patDen "utility".toList,
        patDen "verizon".toList, patDen "comcast".toList],
      subcategories := kws ["Electricity", "Water", "Gas", "Internet",
        "Phone"] }),
   ("Travel".toList,
    { keywords := kws ["hotel", "airline", "flight", "airport", "travel",
        "booking", "expedia", "airbnb", "rental", "car rental", "hertz",
        "enterprise", "vacation"],
      patterns := [patDen "hotel".toList, patDen "airline".toList,
        patDen "flight".toList, patDen "airbnb".toList],
      subcategories := kws ["Hotels", "Flights", "Car Rental",
        "Vacation Rentals", "Travel Booking"] }),
   ("Finance".toList,
    { keywords := kws ["bank", "atm", "fee", "interest", "transfer",
        "payment", "credit", "loan", "mortgage", "insurance", "investment",
        "financial"],
      patterns := [patDen "bank".toList, patDen "atm".toList,
        patDen "fee".toList, patDen "interest".toList],
      subcategories := kws ["Banking Fees", "ATM", "Insurance", "Loans",
        "Investments"] }),
   ("Education".toList,
    { keywords := kws ["school", "university", "college", "tuition",
        "education", "books", "supplies", "course", "class", "learning",
        "student"],
      patterns := [patDen "school".toList, patDen "university".toList,
        patDen "education".toList],
      subcategories := kws ["Tuition", "Books", "Supplies", "Courses",
        "Student Services"] }),
   ("Personal Care".toList,
    { keywords := kws ["salon", "spa", "beauty", "cosmetics", "hair",
        "nail", "massage", "skincare", "personal", "hygiene", "grooming"],
      patterns := [patDen "salon".toList, patDen "spa".toList,
        patDen "beauty".toList],
      subcategories := kws ["Hair Care", "Skincare", "Spa Services",
        "Cosmetics", "Personal Hygiene"] }),
   ("Other".toList,
    { keywords := [], patterns := [],
      subcategories := kws ["Miscellaneous", "Unknown", "Other"] })]

/-- A `(category, subcategory, confidence)` triple. -/
abbrev CatResult : Type := List Char × List Char × ℚ

/-- The transaction dict fields that `_extract_text_for_analysis` reads. -/
structure CTxn where
  merchant : Option (List Char) := none
  description : Option (List Char) := none
  raw_text : Option (List Char) := none

/-- Model of `_extract_text_for_analysis`: join the present parts with spaces and
lowercase. -/
def extractTextForAnalysis (t : CTxn) : List Char :=
  (joinSpace ((t.merchant.toList ++ t.description.toList ++
    t.raw_text.toList))).map Char.toLower

/-- Model of `matches = sum(1 for keyword in keywords if keyword in text)`. -/
def keywordCount (text : List Char) (keywords : List (List Char)) : Nat :=
  (keywords.filter (fun k => containsSub k text)).length

/-- One iteration of the `_keyword_matching` loop over a category:
when the category has at least one matching keyword, its confidence is
`min(matches / len(keywords), 1.0)` and it replaces the running best only
on strictly greater confidence (so the earliest category wins ties). -/
def keywordStep (text : List Char) (best : CatResult)
    (cd : List Char × CatData) : CatResult :=
  let nMatches := keywordCount text cd.2.keywords
  if 0 < nMatches then
    let confidence := min ((nMatches : ℚ) / (cd.2.keywords.length : ℚ)) 1
    if best.2.2 < confidence then
      (cd.1, cd.2.subcategories.headD "General".toList, confidence)
    else best
  else best

/-- Model of `_keyword_matching`: fold the per-category step over the table in
insertion order, starting from `('Other', 'Miscellaneous', 0.0)`. -/
def keywordMatching (cats : Categories) (text : List Char) : CatResult :=
  cats.foldl (keywordStep text) ("Other".toList, "Miscellaneous".toList, 0)

/-- Model of `_pattern_matching`: first category (in table order) one of whose
patterns matches the text returns immediately with the stage's fixed
confidence `0.85`. -/
def patternMatching (cats : Categories) (text : List Char) : CatResult :=
  match cats.find? (fun cd => cd.2.patterns.any (fun p => p text)) with
  | some cd => (cd.1, cd.2.subcategories.headD "General".toList, 85/100)
  | none => ("Other".toList, "Miscellaneous".toList, 0)

/-- Model of `categorize_single_transaction`: the staged cascade.  The spaCy model
(`self.nlp`, possibly absent) and the TF-IDF matcher are external and are
passed as oracles returning their `(category, subcategory, confidence)`
triples. -/
def categorizeSingleTransaction (cats : Categories)
    (nlp : Option (List Char → CatResult)) (ml : List Char → CatResult)
    (t : CTxn) : CatResult :=
  let text := extractTextForAnalysis t
  let keywordMatch := keywordMatching cats text
  if 8/10 < keywordMatch.2.2 then keywordMatch
  else
    let patternMatch := patternMatching cats text
    if 7/10 < patternMatch.2.2 then patternMatch
    else
      let afterNlp : Option CatResult :=
        match nlp with
        | some f => let nlpMatch := f text
                    if 6/10 < nlpMatch.2.2 then some nlpMatch else none
        | none => none
      match afterNlp with
      | some r => r
      | none =>
        let mlMatch := ml text
        if 5/10 < mlMatch.2.2 then mlMatch
        else ("Other".toList, "Miscellaneous".toList, 3/10)

/-- Model of `add_custom_rule`: create the category if missing, append the pattern,
append the subcategory if new.  The `confidence` argument is accepted (the
Python signature defaults it to `0.9`) and, as in the source, never read. -/
def addCustomRule (cats : Categories) (pat : List Char → Bool)
    (category subcategory : List Char) (confidence : ℚ) : Categories :=
  let _ := confidence
  let cats :=
    if cats.any (fun cd => cd.1 = category) then cats
    else cats ++ [(category,
      { keywords := [], patterns := [], subcategories := [subcategory] })]
  cats.map (fun cd =>
    if cd.1 = category then
      (cd.1,
        { cd.2 with
          patterns := cd.2.patterns ++ [pat],
          subcategories :=
            if subcategory ∈ cd.2.subcategories then cd.2.subcategories
            else cd.2.subcategories ++ [subcategory] })
    else cd)

/-! ## `src/services/anomaly_detector.py` -/

/-- One anomaly finding, as assembled by each `_detect_*` method:
`{transaction_id, anomaly_type, score, description, transaction}` (the
`transaction` back-reference is the original input dict and is carried by
the `transaction_id` here). -/
structure Anomaly where
  transaction_id : Int
  anomaly_type : List Char
  score : ℚ
  description : List Char := []
  deriving DecidableEq

/-- A detector, as seen by `detect_anomalies`: one of the `_detect_*`
methods, mapping the prepared batch to its findings.  The statistical and
ML bodies run on pandas/numpy/scikit-learn and are passed as oracles; the
properties proved below constrain only what they can emit, which is read
off their `anomalies.append` sites. -/
abbrev Detector (α : Type) : Type := List α → List Anomaly

/-- The comparison realized by `key=lambda x: x['score'], reverse=True`. -/
def scoreGE (a b : Anomaly) : Prop := b.score ≤ a.score

instance : DecidableRel scoreGE := fun a b => inferInstanceAs (Decidable (b.score ≤ a.score))

instance : IsTotal Anomaly scoreGE := ⟨fun a b => le_total b.score a.score⟩

instance : IsTrans Anomaly scoreGE :=
  ⟨fun _ _ _ hab hbc => le_trans hbc hab⟩

/-- Model of `sorted(anomalies, key=lambda x: x['score'], reverse=True)`: a sort
that is descending by score (Python's `sorted` is a stable descending
sort here; the order among equal scores is irrelevant to every property
proved about it). -/
def sortByScoreDesc (l : List Anomaly) : List Anomaly :=
  l.insertionSort scoreGE

/-- The keep-first-unseen loop of `_deduplicate_anomalies`. -/
def dedupAnomaliesAux (seen : List Int) : List Anomaly → List Anomaly
  | [] => []
  | a :: l =>
    if a.transaction_id ∈ seen then dedupAnomaliesAux seen l
    else a :: dedupAnomaliesAux (a.transaction_id :: seen) l

/-- Model of `AnomalyDetector._deduplicate_anomalies`: sort all findings by score
descending and keep the first finding of each `transaction_id`. -/
def deduplicateAnomalies (l : List Anomaly) : List Anomaly :=
  dedupAnomaliesAux [] (sortByScoreDesc l)

/-- The concatenation of all detector findings gathered by
`detect_anomalies`: the seven statistical detectors always run, the
isolation-forest detector only on batches of more than 20 rows (the
prepared dataframe has one row per transaction). -/
def allFindings (d1 d2 d3 d4 d5 d6 d7 dml : Detector α) (txs : List α) :
    List Anomaly :=
  d1 txs ++ d2 txs ++ d3 txs ++ d4 txs ++ d5 txs ++ d6 txs ++ d7 txs ++
    (if 20 < txs.length then dml txs else [])

/-- Model of `AnomalyDetector.detect_anomalies`: empty result for batches of fewer
than 10 transactions, otherwise the deduplicated concatenation of the
detectors' findings. -/
def detectAnomalies (d1 d2 d3 d4 d5 d6 d7 dml : Detector α)
    (txs : List α) : List Anomaly :=
  if txs.length < 10 then []
  else deduplicateAnomalies (allFindings d1 d2 d3 d4 d5 d6 d7 dml txs)

/-! ## `src/services/reminder_service.py` -/

/-- The `while remaining > 0 and months < 600` loop of
`_calculate_payoff_time`.  The loop body is
`interest = remaining * monthly_rate; principal = payment - interest;
remaining -= principal; months += 1`.  The fuel argument only realizes the
recursion; started at `600` with `months = 0` it can never run out before
the `months < 600` test stops the loop. -/
def payoffLoop (payment monthlyRate : ℚ) : Nat → ℚ → Nat → Nat
  | 0, _, months => months
  | fuel + 1, remaining, months =>
    if 0 < remaining ∧ months < 600 then
      payoffLoop payment monthlyRate fuel
        (remaining - (payment - remaining * monthlyRate)) (months + 1)
    else months

/-- Model of `ReminderService._calculate_payoff_time`. -/
def calculatePayoffTime (balance payment monthlyRate : ℚ) : Nat :=
  if payment ≤ balance * monthlyRate then 999
  else payoffLoop payment monthlyRate 600 balance 0

/-- Result of `_calculate_total_interest`: `float('inf')`, a finite total,
or divergence of the unbounded `while remaining > 0` loop (the Python loop
has no iteration cap; `diverged` is the fuel-runs-out reading of a
non-terminating run). -/
inductive InterestResult where
  | infiniteInterest : InterestResult
  | finite (total : ℚ) : InterestResult
  | diverged : InterestResult
  deriving DecidableEq

/-- The `while remaining > 0` loop of `_calculate_total_interest`. -/
def interestLoop (payment monthlyRate : ℚ) :
    Nat → ℚ → ℚ → Option ℚ
  | 0, remaining, total => if 0 < remaining then none else some total
  | fuel + 1, remaining, total =>
    if 0 < remaining then
      interestLoop payment monthlyRate fuel
        (remaining - (payment - remaining * monthlyRate))
        (total + remaining * monthlyRate)
    else some total

/-- Model of `ReminderService._calculate_total_interest`, with an explicit fuel for
the uncapped loop. -/
def calculateTotalInterest (fuel : Nat) (balance payment monthlyRate : ℚ) :
    InterestResult :=
  if payment ≤ balance * monthlyRate then .infiniteInterest
  else
    match interestLoop payment monthlyRate fuel balance 0 with
    | some t => .finite t
    | none => .diverged

/-! ## Concrete fixtures used by the witnesses -/

/-- The transaction of the categorizer-ordering example. -/
def pizzaTxn : CTxn := { merchant := some "Pizza Hut Restaurant Dining".toList }

/-- A trivial TF-IDF oracle: never clears its threshold. -/
def mlZero : List Char → CatResult :=
  fun _ => ("Other".toList, "Miscellaneous".toList, 0)

/-- An analysis text containing 17 of the 20 `Food & Dining` keywords
(coverage `17/20 = 0.85 > 0.8`) and the word `amazon`, so a `Shopping`
regex pattern matches too. -/
def foodText : List Char :=
  ("restaurant food dining cafe pizza burger starbucks " ++
    "mcdonalds subway delivery takeout bar pub bakery grocery " ++
    "supermarket market amazon").toList

/-- A transaction carrying `foodText` as its merchant. -/
def foodTxn : CTxn := { merchant := some foodText }

/-- A detector that emits nothing, for instantiating the oracles. -/
def noFindings (_ : List Nat) : List Anomaly := []

/-- A fixed `time_anomaly` finding (score `0.7`, as at the
`_detect_time_anomalies` append site). -/
def anomTime : Anomaly :=
  { transaction_id := 2, anomaly_type := "time_anomaly".toList, score := 7/10 }

/-- A detector emitting only `anomTime`. -/
def timeFindings (_ : List Nat) : List Anomaly := [anomTime]

/-- Two findings for one transaction id, the lower-scored one first. -/
def anomLow : Anomaly :=
  { transaction_id := 1, anomaly_type := "amount_outlier".toList, score := 1 }

def anomHigh : Anomaly :=
  { transaction_id := 1, anomaly_type := "frequency_anomaly".toList, score := 2 }

/-- A detector emitting `anomLow` then `anomHigh`. -/
def twoFindings (_ : List Nat) : List Anomaly := [anomLow, anomHigh]

/-- Two transaction candidates with distinct deduplication keys. -/
def txnA : Txn := { raw_text := "a".toList, amount := some 1 }

def txnB : Txn := { raw_text := "b".toList }

/-- A date oracle for the witnesses: parses everything to day `0`. -/
def dpZero : DateOracle := fun _ => some 0

/-- A float oracle that always fails, exercising the `ValueError` paths. -/
def pyFloatFail : FloatOracle := fun _ => none

/-- A concrete statement line with a thousands-separated amount. -/
def amzLine : List Char := "01/15/2024 AMAZON PURCHASE $1,234.56".toList

/-- The candidate that `parse_transaction_line` produces for `amzLine`
under the concrete oracles. -/
def amzTxn : Txn :=
  { raw_text := amzLine, line_number := some 0, date := some 0,
    amount := some (123456/100), merchant := some "AMAZON PURCHASE".toList,
    description := some "AMAZON PURCHASE $1,234.56".toList }

end WioBank

namespace WioBank

/-! ## Helper lemmas -/

/-- Lemma: `finishLine` never touches the amount field: the candidate it returns
carries the amount of the transaction it was given. -/
theorem finishLine_amount {allLines : List (List Char)} {lineIndex : Nat}
    {line : List Char} {t u : Txn}
    (h : finishLine allLines lineIndex line t = some u) :
    u.amount = t.amount := by
  unfold finishLine at h
  dsimp only at h
  split at h <;> split at h <;> cases h <;> rfl

/-- Lemma: `finishLine` drops any candidate without an amount. -/
theorem finishLine_noAmount {allLines : List (List Char)} {lineIndex : Nat}
    {line : List Char} {t : Txn} (h : t.amount = none) :
    finishLine allLines lineIndex line t = none := by
  unfold finishLine
  dsimp only
  split <;> split <;> simp_all

/-- Lemma: `applyDateStep` never touches the amount field. -/
theorem applyDateStep_amount (dp : DateOracle) (line : List Char) (t : Txn) :
    (applyDateStep dp line t).amount = t.amount := by
  unfold applyDateStep
  cases h : findDateCapture line with
  | none => rfl
  | some dm =>
    dsimp only
    cases h2 : dp dm <;> rfl

/-- The value of the float model on the comma-stripped example capture. -/
theorem parseDecimal_amzCapture :
    parseDecimal ("1234.56".toList) = some (123456/100 : ℚ) := by
  unfold parseDecimal
  rw [show ("1234.56".toList.splitOn '.') = ["1234".toList, "56".toList]
    from by decide]
  dsimp only
  rw [if_pos (by decide)]
  have h1 : digitsToNat ("1234".toList) = 1234 := by decide
  have h2 : digitsToNat ("56".toList) = 56 := by decide
  have h3 : ("56".toList).length = 2 := by decide
  rw [h1, h2, h3]
  norm_num

/-- The `months` counter of the payoff loop never passes 600: each
iteration both increments `months` and spends one unit of fuel, and the
loop stops as soon as `months < 600` fails. -/
theorem payoffLoop_le {payment monthlyRate : ℚ} :
    ∀ (fuel : Nat) (remaining : ℚ) (months : Nat), months ≤ 600 →
      payoffLoop payment monthlyRate fuel remaining months ≤ 600 := by
  intro fuel
  induction fuel with
  | zero => intro remaining months h; exact h
  | succ n ih =>
    intro remaining months h
    unfold payoffLoop
    split
    · exact ih _ (months + 1) (by omega)
    · exact h

/-! ## C2 — anomaly batch-size gate -/

/-- C2.  For every batch of fewer than 10 transactions,
`detect_anomalies` returns the empty list before any detector runs:
the result is `[]` for all possible detector behaviours. -/
theorem detect_anomalies_small_batch {α : Type}
    (d1 d2 d3 d4 d5 d6 d7 dml : Detector α) (txs : List α)
    (h : txs.length < 10) :
    detectAnomalies d1 d2 d3 d4 d5 d6 d7 dml txs = [] := by
  unfold detectAnomalies
  simp [h]

/-- Witness for C2: a batch of exactly 9 transactions yields `[]`, even
under detectors that do report findings. -/
theorem detect_anomalies_small_batch_witness :
    detectAnomalies twoFindings timeFindings noFindings noFindings
      noFindings noFindings noFindings noFindings (List.range 9) = [] :=
  detect_anomalies_small_batch twoFindings timeFindings noFindings
    noFindings noFindings noFindings noFindings noFindings (List.range 9)
    (by simp)

/-! ## C4 — payoff simulation boundary -/

/-- C4.  For every positive balance: when `payment ≤ balance * monthly_rate`
the payoff time is the sentinel `999` and the total interest is
`float('inf')` (for any fuel given to the uncapped loop); otherwise the
amortization loop of `_calculate_payoff_time` runs at most 600 iterations
and the returned month count never exceeds 600. -/
theorem payoff_simulation_boundary (balance payment monthlyRate : ℚ)
    (hb : 0 < balance) :
    (payment ≤ balance * monthlyRate →
      calculatePayoffTime balance payment monthlyRate = 999 ∧
      ∀ fuel, calculateTotalInterest fuel balance payment monthlyRate =
        InterestResult.infiniteInterest) ∧
    (¬ payment ≤ balance * monthlyRate →
      calculatePayoffTime balance payment monthlyRate ≤ 600) := by
  constructor
  · intro h
    constructor
    · unfold calculatePayoffTime; simp [h]
    · intro fuel; unfold calculateTotalInterest; simp [h]
  · intro h
    unfold calculatePayoffTime
    simp only [h, if_false]
    exact payoffLoop_le 600 balance 0 (by omega)

/-- Witness for C4: with balance 100 at monthly rate 1/50, a payment of 1
does not cover the interest and yields the sentinels; a payment of 200 at
rate 0 pays off within the cap. -/
theorem payoff_simulation_boundary_witness :
    (0 < (100 : ℚ) ∧ (1 : ℚ) ≤ 100 * (1/50) ∧
      calculatePayoffTime 100 1 (1/50) = 999 ∧
      calculateTotalInterest 7 100 1 (1/50) = InterestResult.infiniteInterest) ∧
    (¬ (200 : ℚ) ≤ 100 * 0 ∧ calculatePayoffTime 100 200 0 ≤ 600) := by
  refine ⟨⟨by norm_num, by norm_num, ?_, ?_⟩, by norm_num, ?_⟩
  · exact ((payoff_simulation_boundary 100 1 (1/50) (by norm_num)).1
      (by norm_num)).1
  · exact ((payoff_simulation_boundary 100 1 (1/50) (by norm_num)).1
      (by norm_num)).2 7
  · exact (payoff_simulation_boundary 100 200 0 (by norm_num)).2 (by norm_num)

/-! ## C8 — transaction-line recognition requires date AND amount -/

/-- C8.  A line with a recognizable amount token but no recognizable date
token is not a transaction line, and `is_transaction_line` returns true
only when both a date pattern and an amount pattern match (`has_date and
has_amount`). -/
theorem is_transaction_line_needs_date_and_amount (line : List Char) :
    ((findAmountCapture line).isSome → findDateCapture line = none →
      isTransactionLine line = false) ∧
    (isTransactionLine line = true →
      (findDateCapture line).isSome ∧ (findAmountCapture line).isSome) := by
  constructor
  · intro _ hdate
    unfold isTransactionLine
    simp [hdate]
  · intro h
    unfold isTransactionLine at h
    exact ⟨(Bool.and_eq_true _ _ ▸ h).1, (Bool.and_eq_true _ _ ▸ h).2⟩

/-- Witness for C8: the subtotal line has an amount but no date, and is
rejected. -/
theorem is_transaction_line_needs_date_and_amount_witness :
    (findAmountCapture "Subtotal $45.00".toList).isSome = true ∧
    findDateCapture "Subtotal $45.00".toList = none ∧
    isTransactionLine "Subtotal $45.00".toList = false := by
  refine ⟨by decide, by decide, ?_⟩
  exact (is_transaction_line_needs_date_and_amount "Subtotal $45.00".toList).1
    (by decide) (by decide)

/-! ## C9 — thousands separators are stripped before parsing -/

/-- C9.  Whenever the amount-pattern search on a line captures the
thousands-separated string `1,234.56` — in particular on any line
containing `$1,234.56`, whose first amount pattern captures exactly that —
the candidate built by `parse_transaction_line` (under the concrete
decimal-literal float model) carries the amount `1234.56` exactly: the
commas are removed before the numeric conversion. -/
theorem amount_parsing_strips_thousands (dp : DateOracle)
    (line : List Char) (allLines : List (List Char)) (lineIndex : Nat)
    (t : Txn)
    (hcap : findAmountCapture line = some ("1,234.56".toList))
    (hparse : parseTransactionLine parseDecimal dp line allLines lineIndex =
      some t) :
    t.amount = some (123456/100 : ℚ) := by
  unfold parseTransactionLine at hparse
  rw [hcap] at hparse
  unfold parseLineFrom at hparse
  dsimp only at hparse
  rw [show stripCommas ("1,234.56".toList) = "1234.56".toList from by decide,
    parseDecimal_amzCapture] at hparse
  dsimp only at hparse
  have h := finishLine_amount hparse
  simpa using h

/-- Witness for C9: the concrete line `01/15/2024 AMAZON PURCHASE
$1,234.56` captures `1,234.56` and parses to a candidate with amount
`1234.56`. -/
theorem amount_parsing_strips_thousands_witness :
    findAmountCapture amzLine = some ("1,234.56".toList) ∧
    parseTransactionLine parseDecimal dpZero amzLine [amzLine] 0 =
      some amzTxn ∧
    amzTxn.amount = some (123456/100 : ℚ) := by
  have hcap : findAmountCapture amzLine = some ("1,234.56".toList) := by
    decide
  have hparse : parseTransactionLine parseDecimal dpZero amzLine [amzLine] 0 =
      some amzTxn := by
    unfold parseTransactionLine
    rw [hcap]
    unfold parseLineFrom
    dsimp only
    rw [show stripCommas ("1,234.56".toList) = "1234.56".toList from by decide,
      parseDecimal_amzCapture]
    dsimp only
    rw [show applyDateStep dpZero amzLine
        { raw_text := amzLine, line_number := some 0 } =
        { raw_text := amzLine, line_number := some 0, date := some 0 } from by
      unfold applyDateStep
      rw [show findDateCapture amzLine = some ("01/15/2024".toList) from by
        decide]
      rfl]
    unfold finishLine
    dsimp only
    rw [show merchantOfLine amzLine = some ("AMAZON PURCHASE".toList) from by
      decide]
    rw [show descriptionOfLine amzLine =
      some ("AMAZON PURCHASE $1,234.56".toList) from by decide]
    split
    · next hc => exact absurd hc (by simp)
    · rfl
  exact ⟨hcap, hparse,
    amount_parsing_strips_thousands dpZero amzLine [amzLine] 0 amzTxn hcap
      hparse⟩

/-! ## C5 — a failed numeric parse discards only the amount candidate -/

/-- C5.  When the matched amount substring fails the numeric conversion
(the float oracle returns `none`, the model of `ValueError`), extraction
returns normally: `parse_transaction_line` yields exactly what it yields
with the amount candidate absent (namely no candidate, since a candidate
without an amount is discarded by the final guard), with the date,
merchant and description computations untouched; and `parse_table_fields`
skips just that field candidate, its amount scan continuing with the
remaining fields and its other extracted fields unaffected. -/
theorem extraction_amount_parse_failure :
    (∀ (pyF : FloatOracle) (dp : DateOracle) (line : List Char)
        (allLines : List (List Char)) (lineIndex : Nat) (c : List Char),
      findAmountCapture line = some c → pyF (stripCommas c) = none →
      parseTransactionLine pyF dp line allLines lineIndex =
        parseLineFrom pyF dp line allLines lineIndex none ∧
      parseTransactionLine pyF dp line allLines lineIndex = none) ∧
    (∀ (pyF : FloatOracle) (dp : DateOracle) (f : List Char)
        (rest : List (List Char)) (rawLine : List Char) (c : List Char),
      tableAmountCapture f = some c → pyF (stripCommas c) = none →
      amountFromFields pyF (f :: rest) = amountFromFields pyF rest ∧
      parseTableFields pyF dp (f :: rest) rawLine =
        parseTableFrom dp (f :: rest) rawLine (amountFromFields pyF rest)) := by
  constructor
  · intro pyF dp line allLines lineIndex c hcap hpf
    have hnone : parseLineFrom pyF dp line allLines lineIndex none = none := by
      unfold parseLineFrom
      dsimp only
      exact finishLine_noAmount (by simp [applyDateStep_amount])
    have hsome : parseLineFrom pyF dp line allLines lineIndex (some c) =
        none := by
      unfold parseLineFrom
      dsimp only
      rw [hpf]
    unfold parseTransactionLine
    rw [hcap]
    exact ⟨hsome.trans hnone.symm, hsome⟩
  · intro pyF dp f rest rawLine c hcap hpf
    have hamt : amountFromFields pyF (f :: rest) =
        amountFromFields pyF rest := by
      simp only [amountFromFields, hcap, hpf]
    refine ⟨hamt, ?_⟩
    unfold parseTableFields
    rw [hamt]

/-- Witness for C5: under an always-failing float oracle, the line
`1/2/24 $5.00` (amount capture `5.00`) parses to no candidate, exactly as
with the amount candidate absent, and the table scan on
`["$5.00", "6.00"]` skips the failing first field. -/
theorem extraction_amount_parse_failure_witness :
    findAmountCapture ("1/2/24 $5.00".toList) = some ("5.00".toList) ∧
    pyFloatFail (stripCommas ("5.00".toList)) = none ∧
    parseTransactionLine pyFloatFail dpZero ("1/2/24 $5.00".toList)
      ["1/2/24 $5.00".toList] 0 = none ∧
    tableAmountCapture ("$5.00".toList) = some ("5.00".toList) ∧
    amountFromFields pyFloatFail ["$5.00".toList, "6.00".toList] =
      amountFromFields pyFloatFail ["6.00".toList] := by
  have h1 : findAmountCapture ("1/2/24 $5.00".toList) =
      some ("5.00".toList) := by decide
  have h2 : tableAmountCapture ("$5.00".toList) = some ("5.00".toList) := by
    decide
  refine ⟨h1, rfl, ?_, h2, ?_⟩
  · exact ((extraction_amount_parse_failure.1 pyFloatFail dpZero
      ("1/2/24 $5.00".toList) ["1/2/24 $5.00".toList] 0 ("5.00".toList)
      h1 rfl)).2
  · exact ((extraction_amount_parse_failure.2 pyFloatFail dpZero
      ("$5.00".toList) ["6.00".toList] ("$5.00 6.00".toList) ("5.00".toList)
      h2 rfl)).1

/-! ## C1 — categorizer stage ordering on the Pizza Hut example -/

/-- A category with no matching keyword leaves the running best alone. -/
theorem keywordStep_skip (text : List Char) (best : CatResult)
    (cd : List Char × CatData) (h : keywordCount text cd.2.keywords = 0) :
    keywordStep text best cd = best := by
  unfold keywordStep
  simp [h]

/-- A category with `n` matching keywords out of `len` improves on a
strictly smaller best. -/
theorem keywordStep_take (text : List Char) (best : CatResult)
    (cd : List Char × CatData) (n len : Nat)
    (hc : keywordCount text cd.2.keywords = n)
    (hlen : cd.2.keywords.length = len) (hpos : 0 < n)
    (hlt : best.2.2 < min ((n : ℚ) / (len : ℚ)) 1) :
    keywordStep text best cd =
      (cd.1, cd.2.subcategories.headD ("General".toList),
        min ((n : ℚ) / (len : ℚ)) 1) := by
  unfold keywordStep
  dsimp only
  rw [hc, hlen, if_pos hpos, if_pos hlt]

/-- A category whose confidence does not beat the running best is
ignored. -/
theorem keywordStep_keep (text : List Char) (best : CatResult)
    (cd : List Char × CatData) (n len : Nat)
    (hc : keywordCount text cd.2.keywords = n)
    (hlen : cd.2.keywords.length = len) (hpos : 0 < n)
    (hge : ¬ best.2.2 < min ((n : ℚ) / (len : ℚ)) 1) :
    keywordStep text best cd = best := by
  unfold keywordStep
  dsimp only
  rw [hc, hlen, if_pos hpos, if_neg hge]

/-- When every category covers at most 8 of each 10 of its keywords
(`10 * matches ≤ 8 * len`), the keyword-stage confidence cannot pass
`0.8`. -/
theorem keywordFold_le (text : List Char) :
    ∀ (cats : Categories) (best : CatResult), best.2.2 ≤ 8/10 →
      (∀ cd ∈ cats,
        10 * keywordCount text cd.2.keywords ≤ 8 * cd.2.keywords.length) →
      (cats.foldl (keywordStep text) best).2.2 ≤ 8/10 := by
  intro cats
  induction cats with
  | nil => intro best hb _; exact hb
  | cons cd rest ih =>
    intro best hb h
    rw [List.foldl_cons]
    apply ih
    · unfold keywordStep
      dsimp only
      split
      · next hpos =>
        split
        · next =>
          dsimp only
          have hcd := h cd (List.mem_cons_self _ _)
          have hcle : keywordCount text cd.2.keywords ≤
              cd.2.keywords.length := List.length_filter_le _ _
          have hlen0 : (0 : ℚ) < (cd.2.keywords.length : ℚ) := by
            exact_mod_cast lt_of_lt_of_le hpos hcle
          have hdiv : ((keywordCount text cd.2.keywords : ℚ)) /
              (cd.2.keywords.length : ℚ) ≤ 8/10 := by
            rw [div_le_iff₀ hlen0]
            have hc10 : (10 : ℚ) * (keywordCount text cd.2.keywords : ℚ) ≤
                8 * (cd.2.keywords.length : ℚ) := by exact_mod_cast hcd
            linarith
          exact le_trans (min_le_left _ _) hdiv
        · next => exact hb
      · next => exact hb
    · intro cd2 h2
      exact h cd2 (List.mem_cons_of_mem _ h2)

/-- Bound `(keyword_matching(text))[2] ≤ 0.8` under the per-category coverage
bound. -/
theorem keywordMatching_le (cats : Categories) (text : List Char)
    (h : ∀ cd ∈ cats,
      10 * keywordCount text cd.2.keywords ≤ 8 * cd.2.keywords.length) :
    (keywordMatching cats text).2.2 ≤ 8/10 :=
  keywordFold_le text cats _ (by norm_num) h

/-- The pattern stage returns the first category with a matching pattern,
with fixed confidence `0.85`. -/
theorem patternMatching_cons_pos (c : List Char × CatData)
    (rest : Categories) (text : List Char)
    (h : c.2.patterns.any (fun p => p text) = true) :
    patternMatching (c :: rest) text =
      (c.1, c.2.subcategories.headD ("General".toList), 85/100) := by
  unfold patternMatching
  rw [@List.find?_cons_of_pos _ (fun cd => cd.2.patterns.any (fun p => p text))
    c rest h]

/-- When the keyword stage misses its `0.8` threshold and the pattern
stage clears its `0.7` threshold, `categorize_single_transaction` returns
the pattern-stage result, for every NLP and ML oracle. -/
theorem categorizeSingle_to_pattern (cats : Categories)
    (nlp : Option (List Char → CatResult)) (ml : List Char → CatResult)
    (t : CTxn)
    (hk : ¬ (8/10 < (keywordMatching cats (extractTextForAnalysis t)).2.2))
    (hp : 7/10 < (patternMatching cats (extractTextForAnalysis t)).2.2) :
    categorizeSingleTransaction cats nlp ml t =
      patternMatching cats (extractTextForAnalysis t) := by
  unfold categorizeSingleTransaction
  dsimp only
  rw [if_neg hk, if_pos hp]

/-- Counterexample to C1 as stated: on the transaction with merchant
`Pizza Hut Restaurant Dining` the keyword stage does NOT clear the `0.8`
threshold (its coverage of the 20 Food & Dining keywords is `3/20`), so
the resulting `('Food & Dining', 'Restaurants', 0.85)` — here computed
with no spaCy model and a never-firing ML oracle — is produced by the
pattern stage, not the keyword stage. -/
theorem categorizer_pizza_not_keyword_stage :
    ¬ (8/10 <
      (keywordMatching initCategories
        (extractTextForAnalysis pizzaTxn)).2.2) ∧
    categorizeSingleTransaction initCategories none mlZero pizzaTxn =
      ("Food & Dining".toList, "Restaurants".toList, 85/100) ∧
    patternMatching initCategories (extractTextForAnalysis pizzaTxn) =
      ("Food & Dining".toList, "Restaurants".toList, 85/100) := by
  have htext : extractTextForAnalysis pizzaTxn =
      "pizza hut restaurant dining".toList := by decide
  have hk : ¬ (8/10 <
      (keywordMatching initCategories
        (extractTextForAnalysis pizzaTxn)).2.2) := by
    rw [htext]
    exact not_lt.2 (keywordMatching_le _ _ (by decide))
  have hp : patternMatching initCategories
      ("pizza hut restaurant dining".toList) =
      ("Food & Dining".toList, "Restaurants".toList, 85/100) :=
    patternMatching_cons_pos _ _ _ (by decide)
  refine ⟨hk, ?_, by rw [htext]; exact hp⟩
  rw [categorizeSingle_to_pattern initCategories none mlZero pizzaTxn hk
    (by rw [htext, hp]; norm_num), htext, hp]

/-- C1 (amended).  Stage ordering: whenever the keyword stage's best match
is `Food & Dining` with confidence above `0.8`, it is returned unchanged —
whether or not a `Shopping` regex also matches, and for every NLP and ML
oracle.  The `Pizza Hut Restaurant Dining` example, however, is
categorized `('Food & Dining', 'Restaurants', 0.85)` by the pattern stage
(via the `.*restaurant.*` pattern), its keyword coverage `3/20` being far
below the threshold. -/
theorem categorizer_stage_ordering_amended :
    (∀ (nlp : Option (List Char → CatResult)) (ml : List Char → CatResult)
        (t : CTxn) (sc : List Char) (c : ℚ),
      keywordMatching initCategories (extractTextForAnalysis t) =
        ("Food & Dining".toList, sc, c) →
      8/10 < c →
      categorizeSingleTransaction initCategories nlp ml t =
        ("Food & Dining".toList, sc, c)) ∧
    (∀ (nlp : Option (List Char → CatResult)) (ml : List Char → CatResult)
        (t : CTxn),
      extractTextForAnalysis t = "pizza hut restaurant dining".toList →
      categorizeSingleTransaction initCategories nlp ml t =
        ("Food & Dining".toList, "Restaurants".toList, 85/100)) := by
  constructor
  · intro nlp ml t sc c hk hc
    unfold categorizeSingleTransaction
    dsimp only
    rw [hk, if_pos hc]
  · intro nlp ml t htext
    have hk : ¬ (8/10 <
        (keywordMatching initCategories
          (extractTextForAnalysis t)).2.2) := by
      rw [htext]
      exact not_lt.2 (keywordMatching_le _ _ (by decide))
    have hp : patternMatching initCategories
        ("pizza hut restaurant dining".toList) =
        ("Food & Dining".toList, "Restaurants".toList, 85/100) :=
      patternMatching_cons_pos _ _ _ (by decide)
    rw [categorizeSingle_to_pattern initCategories nlp ml t hk
      (by rw [htext, hp]; norm_num), htext, hp]

/-- Evaluation of the keyword stage on `foodText`: the Food & Dining
keyword coverage is `17/20` (take), Shopping covers `1/16` and cannot beat
it (keep), every other category has no matching keyword (skip). -/
theorem keywordMatching_foodText :
    keywordMatching initCategories (extractTextForAnalysis foodTxn) =
      ("Food & Dining".toList, "Restaurants".toList, 17/20) := by
  rw [show extractTextForAnalysis foodTxn = foodText from by decide]
  unfold keywordMatching
  simp only [initCategories]
  rw [List.foldl_cons, keywordStep_take _ _ _ 17 20 (by decide) (by decide)
    (by norm_num) (by refine lt_min ?_ ?_ <;> norm_num)]
  rw [List.foldl_cons, keywordStep_skip _ _ _ (by decide)]
  rw [List.foldl_cons, keywordStep_keep _ _ _ 1 16 (by decide) (by decide)
    (by norm_num)
    (by
      show ¬ (min ((17 : ℚ)/20) 1 < min ((1 : ℚ)/16) 1)
      rw [min_eq_left (by norm_num : (17 : ℚ)/20 ≤ 1),
        min_eq_left (by norm_num : (1 : ℚ)/16 ≤ 1)]
      norm_num)]
  rw [List.foldl_cons, keywordStep_skip _ _ _ (by decide)]
  rw [List.foldl_cons, keywordStep_skip _ _ _ (by decide)]
  rw [List.foldl_cons, keywordStep_skip _ _ _ (by decide)]
  rw [List.foldl_cons, keywordStep_skip _ _ _ (by decide)]
  rw [List.foldl_cons, keywordStep_skip _ _ _ (by decide)]
  rw [List.foldl_cons, keywordStep_skip _ _ _ (by decide)]
  rw [List.foldl_cons, keywordStep_skip _ _ _ (by decide)]
  rw [List.foldl_cons, keywordStep_skip _ _ _ (by decide)]
  rw [List.foldl_nil,
    show min (((17 : Nat) : ℚ)/((20 : Nat) : ℚ)) 1 = (17 : ℚ)/20 from by
      push_cast
      rw [min_eq_left (by norm_num)]]
  rfl

/-- Witness for the amended C1: `foodTxn`'s keyword-stage best match is
`Food & Dining` at coverage `17/20 > 0.8`, a Shopping regex word
(`amazon`) also occurs in the text, and categorization returns the
keyword-stage triple unchanged. -/
theorem categorizer_stage_ordering_amended_witness :
    keywordMatching initCategories (extractTextForAnalysis foodTxn) =
      ("Food & Dining".toList, "Restaurants".toList, 17/20) ∧
    (8/10 : ℚ) < 17/20 ∧
    patDen ("amazon".toList) (extractTextForAnalysis foodTxn) = true ∧
    categorizeSingleTransaction initCategories none mlZero foodTxn =
      ("Food & Dining".toList, "Restaurants".toList, 17/20) :=
  ⟨keywordMatching_foodText, by norm_num, by decide,
    categorizer_stage_ordering_amended.1 none mlZero foodTxn _ _
      keywordMatching_foodText (by norm_num)⟩

/-! ## C7 — deduplication keeps exactly the first candidate per key -/

/-- The dedup loop agrees with the keep-first-occurrence reading whenever
the `seen` set holds exactly the keys of the already-walked prefix. -/
theorem dedupTxnsAux_eq_spec :
    ∀ (l : List Txn) (seen : List (Option Int × Option ℚ × List Char))
      (hist : List Txn),
      (∀ k, k ∈ seen ↔ ∃ u ∈ hist, dedupKey u = k) →
      dedupTransactionsAux seen l = specKeepFirstByKey hist l := by
  intro l
  induction l with
  | nil => intro seen hist _; rfl
  | cons t ts ih =>
    intro seen hist hinv
    unfold dedupTransactionsAux specKeepFirstByKey
    by_cases hmem : dedupKey t ∈ seen
    · rw [if_pos hmem]
      have hnall : ¬ ∀ u ∈ hist, dedupKey u ≠ dedupKey t := by
        obtain ⟨u, hu, hk⟩ := (hinv (dedupKey t)).1 hmem
        exact fun hall => hall u hu hk
      rw [if_neg hnall]
      apply ih
      intro k
      constructor
      · intro hk
        obtain ⟨u, hu, he⟩ := (hinv k).1 hk
        exact ⟨u, List.mem_append_left _ hu, he⟩
      · rintro ⟨u, hu, he⟩
        rcases List.mem_append.1 hu with h1 | h2
        · exact (hinv k).2 ⟨u, h1, he⟩
        · have ht : u = t := by simpa using h2
          subst ht
          rw [← he]
          exact hmem
    · rw [if_neg hmem]
      have hall : ∀ u ∈ hist, dedupKey u ≠ dedupKey t := by
        intro u hu he
        exact hmem ((hinv (dedupKey t)).2 ⟨u, hu, he⟩)
      rw [if_pos hall]
      congr 1
      apply ih
      intro k
      constructor
      · intro hk
        rcases List.mem_cons.1 hk with h1 | h2
        · exact ⟨t, List.mem_append_right _ (List.mem_singleton.2 rfl), h1.symm⟩
        · obtain ⟨u, hu, he⟩ := (hinv k).1 h2
          exact ⟨u, List.mem_append_left _ hu, he⟩
      · rintro ⟨u, hu, he⟩
        rcases List.mem_append.1 hu with h1 | h2
        · exact List.mem_cons_of_mem _ ((hinv k).2 ⟨u, h1, he⟩)
        · have ht : u = t := by simpa using h2
          subst ht
          exact List.mem_cons.2 (Or.inl he.symm)

/-- C7.  `deduplicate_transactions` keeps exactly the first candidate of
each `(date, amount, merchant[:20])` key in input order (it equals the
keep-first-occurrence function read off the spec); two candidates with
identical keys collapse to the first, and two candidates that differ in at
least one key component both survive. -/
theorem deduplicate_transactions_first_per_key :
    (∀ l : List Txn, deduplicateTransactions l = specKeepFirstByKey [] l) ∧
    (∀ a b : Txn, dedupKey a ≠ dedupKey b →
      deduplicateTransactions [a, b] = [a, b]) ∧
    (∀ a b : Txn, dedupKey a = dedupKey b →
      deduplicateTransactions [a, b] = [a]) := by
  refine ⟨?_, ?_, ?_⟩
  · intro l
    apply dedupTxnsAux_eq_spec
    intro k
    simp
  · intro a b hne
    simp [deduplicateTransactions, dedupTransactionsAux, Ne.symm hne]
  · intro a b he
    simp [deduplicateTransactions, dedupTransactionsAux, he]

/-- Witness for C7: candidates differing in the amount component of the
key both survive, and a key-equal pair collapses to the first. -/
theorem deduplicate_transactions_first_per_key_witness :
    dedupKey txnA ≠ dedupKey txnB ∧
    deduplicateTransactions [txnA, txnB] = [txnA, txnB] ∧
    dedupKey txnB = dedupKey txnB ∧
    deduplicateTransactions [txnB, txnB] = [txnB] := by
  have hne : dedupKey txnA ≠ dedupKey txnB := by
    intro h
    have : (some 1 : Option ℚ) = none := congrArg (fun k => k.2.1) h
    exact Option.noConfusion this
  exact ⟨hne, (deduplicate_transactions_first_per_key.2.1 txnA txnB hne), rfl,
    (deduplicate_transactions_first_per_key.2.2 txnB txnB rfl)⟩

/-! ## C3 — anomaly deduplication is highest-score-wins -/

/-- Everything kept by the dedup loop comes from the input. -/
theorem dedupAnomsAux_subset :
    ∀ (l : List Anomaly) (seen : List Int) (a : Anomaly),
      a ∈ dedupAnomaliesAux seen l → a ∈ l := by
  intro l
  induction l with
  | nil => intro seen a h; exact absurd h (by simp [dedupAnomaliesAux])
  | cons x rest ih =>
    intro seen a h
    unfold dedupAnomaliesAux at h
    split at h
    · exact List.mem_cons_of_mem _ (ih _ _ h)
    · rcases List.mem_cons.1 h with h1 | h2
      · exact h1 ▸ List.mem_cons_self _ _
      · exact List.mem_cons_of_mem _ (ih _ _ h2)

/-- The dedup loop never emits a transaction id it has already seen. -/
theorem dedupAnomsAux_not_seen :
    ∀ (l : List Anomaly) (seen : List Int) (a : Anomaly),
      a ∈ dedupAnomaliesAux seen l → a.transaction_id ∉ seen := by
  intro l
  induction l with
  | nil => intro seen a h; exact absurd h (by simp [dedupAnomaliesAux])
  | cons x rest ih =>
    intro seen a h
    unfold dedupAnomaliesAux at h
    split at h
    · exact ih _ _ h
    · next hx =>
      rcases List.mem_cons.1 h with h1 | h2
      · subst h1; exact hx
      · intro hmem
        exact ih _ _ h2 (List.mem_cons_of_mem _ hmem)

/-- After the dedup loop, transaction ids are pairwise distinct. -/
theorem dedupAnomsAux_nodup :
    ∀ (l : List Anomaly) (seen : List Int),
      ((dedupAnomaliesAux seen l).map
        (fun a => a.transaction_id)).Nodup := by
  intro l
  induction l with
  | nil => intro seen; simp [dedupAnomaliesAux]
  | cons x rest ih =>
    intro seen
    unfold dedupAnomaliesAux
    split
    · exact ih _
    · refine List.Nodup.cons ?_ (ih _)
      intro hmem
      simp only [List.mem_map] at hmem
      obtain ⟨b, hb, he⟩ := hmem
      exact dedupAnomsAux_not_seen _ _ _ hb
        (he ▸ List.mem_cons_self _ _)

/-- On a batch sorted by descending score, each kept finding dominates
every input finding with the same transaction id. -/
theorem dedupAnomsAux_max :
    ∀ (l : List Anomaly) (seen : List Int),
      l.Sorted scoreGE →
      ∀ a ∈ dedupAnomaliesAux seen l, ∀ b ∈ l,
        b.transaction_id = a.transaction_id → b.score ≤ a.score := by
  intro l
  induction l with
  | nil => intro seen _ a ha; exact absurd ha (by simp [dedupAnomaliesAux])
  | cons x rest ih =>
    intro seen hsort a ha b hb htid
    have hrest : rest.Sorted scoreGE := hsort.of_cons
    unfold dedupAnomaliesAux at ha
    split at ha
    · next hx =>
      rcases List.mem_cons.1 hb with h1 | h2
      · exfalso
        apply dedupAnomsAux_not_seen _ _ _ ha
        rw [← htid, h1]
        exact hx
      · exact ih _ hrest a ha b h2 htid
    · next hx =>
      rcases List.mem_cons.1 ha with h1 | h2
      · subst h1
        rcases List.mem_cons.1 hb with hb1 | hb2
        · exact le_of_eq (congrArg (fun y => y.score) hb1)
        · exact List.rel_of_sorted_cons hsort b hb2
      · rcases List.mem_cons.1 hb with hb1 | hb2
        · exfalso
          apply dedupAnomsAux_not_seen _ _ _ h2
          rw [← htid, hb1]
          exact List.mem_cons_self _ _
        · exact ih _ hrest a h2 b hb2 htid

/-- C3.  The list returned by `detect_anomalies` holds at most one finding
per transaction id, and each kept finding's score is greater than or equal
to the score of every finding any detector produced for that transaction id
(pure highest-score-wins, for all detector oracles and batches). -/
theorem detect_anomalies_highest_score_wins {α : Type}
    (d1 d2 d3 d4 d5 d6 d7 dml : Detector α) (txs : List α) :
    ((detectAnomalies d1 d2 d3 d4 d5 d6 d7 dml txs).map
      (fun a => a.transaction_id)).Nodup ∧
    (∀ a ∈ detectAnomalies d1 d2 d3 d4 d5 d6 d7 dml txs,
      ∀ b ∈ allFindings d1 d2 d3 d4 d5 d6 d7 dml txs,
        b.transaction_id = a.transaction_id → b.score ≤ a.score) := by
  unfold detectAnomalies
  split
  · simp
  · constructor
    · exact dedupAnomsAux_nodup _ _
    · intro a ha b hb htid
      have hsort : (sortByScoreDesc
          (allFindings d1 d2 d3 d4 d5 d6 d7 dml txs)).Sorted scoreGE :=
        List.sorted_insertionSort scoreGE _
      have hbs : b ∈ sortByScoreDesc
          (allFindings d1 d2 d3 d4 d5 d6 d7 dml txs) :=
        (List.perm_insertionSort scoreGE _).symm.subset hb
      exact dedupAnomsAux_max _ _ hsort a ha b hbs htid

/-- Witness for C3: with one detector reporting two findings for
transaction 1 (scores 1 and 2, lower first), the result keeps the
score-2 finding, ids are duplicate-free, and the dropped score-1 finding
is dominated. -/
theorem detect_anomalies_highest_score_wins_witness :
    ((detectAnomalies twoFindings noFindings noFindings noFindings
        noFindings noFindings noFindings noFindings (List.range 10)).map
      (fun a => a.transaction_id)).Nodup ∧
    anomHigh ∈
      detectAnomalies twoFindings noFindings noFindings noFindings
        noFindings noFindings noFindings noFindings (List.range 10) ∧
    anomLow ∈
      allFindings twoFindings noFindings noFindings noFindings noFindings
        noFindings noFindings noFindings (List.range 10) ∧
    anomLow.score ≤ anomHigh.score := by
  have hdet : detectAnomalies twoFindings noFindings noFindings noFindings
      noFindings noFindings noFindings noFindings (List.range 10) =
      [anomHigh] := by rfl
  have hall : allFindings twoFindings noFindings noFindings noFindings
      noFindings noFindings noFindings noFindings (List.range 10) =
      [anomLow, anomHigh] := by rfl
  have hmem1 : anomHigh ∈
      detectAnomalies twoFindings noFindings noFindings noFindings
        noFindings noFindings noFindings noFindings (List.range 10) := by
    rw [hdet]; exact List.mem_singleton.2 rfl
  have hmem2 : anomLow ∈
      allFindings twoFindings noFindings noFindings noFindings noFindings
        noFindings noFindings noFindings (List.range 10) := by
    rw [hall]; exact List.mem_cons_self _ _
  exact ⟨(detect_anomalies_highest_score_wins twoFindings noFindings
      noFindings noFindings noFindings noFindings noFindings noFindings
      (List.range 10)).1,
    hmem1, hmem2,
    (detect_anomalies_highest_score_wins twoFindings noFindings noFindings
      noFindings noFindings noFindings noFindings noFindings
      (List.range 10)).2 _ hmem1 _ hmem2 rfl⟩

/-! ## C6 — every reported anomaly score lies in [0, 1] -/

/-- C6.  Every anomaly in the list returned by `detect_anomalies` has a
score in `[0, 1]`, including on batches of more than 20 transactions where
the isolation-forest detector also runs.  The numeric kernels of the
detectors run on pandas/numpy/scikit-learn and enter as oracles; each
hypothesis below is exactly the shape of the scores the corresponding
`_detect_*` method can append, read off its source:

* amount outliers: `min(|amount − median| / std, 1.0)` — `min x 1` with
  `x ≥ 0`;
* frequency: `min((daily_count − avg) / max(std, 1), 1.0)` with a guard
  `daily_count > avg + 2·std` forcing the quotient nonnegative;
* time anomalies: the constant `0.7`;
* first-time merchants: the constant `0.8`;
* category outliers: `min(z / 3, 1.0)` with a z-score `z ≥ 0`;
* velocity: the constant `0.9`;
* round-amount patterns: the constant `0.6`;
* isolation forest: `abs(score)` for `score = score_samples(x)`, which
  scikit-learn defines as the negation of the original paper's anomaly
  score in `(0, 1]`, hence `score ∈ [−1, 0]`. -/
theorem detect_anomalies_scores_in_unit_interval {α : Type}
    (d1 d2 d3 d4 d5 d6 d7 dml : Detector α) (txs : List α)
    (h1 : ∀ a ∈ d1 txs, ∃ x : ℚ, 0 ≤ x ∧ a.score = min x 1)
    (h2 : ∀ a ∈ d2 txs, ∃ x : ℚ, 0 ≤ x ∧ a.score = min x 1)
    (h3 : ∀ a ∈ d3 txs, a.score = 7/10)
    (h4 : ∀ a ∈ d4 txs, a.score = 8/10)
    (h5 : ∀ a ∈ d5 txs, ∃ z : ℚ, 0 ≤ z ∧ a.score = min (z/3) 1)
    (h6 : ∀ a ∈ d6 txs, a.score = 9/10)
    (h7 : ∀ a ∈ d7 txs, a.score = 6/10)
    (hml : ∀ a ∈ dml txs, ∃ s : ℚ, -1 ≤ s ∧ s ≤ 0 ∧ a.score = |s|) :
    ∀ a ∈ detectAnomalies d1 d2 d3 d4 d5 d6 d7 dml txs,
      0 ≤ a.score ∧ a.score ≤ 1 := by
  intro a ha
  unfold detectAnomalies at ha
  split at ha
  · exact absurd ha (by simp)
  · have hsorted : a ∈ sortByScoreDesc
        (allFindings d1 d2 d3 d4 d5 d6 d7 dml txs) :=
      dedupAnomsAux_subset _ _ _ ha
    have hall : a ∈ allFindings d1 d2 d3 d4 d5 d6 d7 dml txs :=
      (List.perm_insertionSort scoreGE _).subset hsorted
    unfold allFindings at hall
    simp only [List.mem_append] at hall
    rcases hall with (((((((ha1 | ha2) | ha3) | ha4) | ha5) | ha6) | ha7) |
      haml)
    · obtain ⟨x, hx, he⟩ := h1 a ha1
      rw [he]
      exact ⟨le_min hx (by norm_num), min_le_right _ _⟩
    · obtain ⟨x, hx, he⟩ := h2 a ha2
      rw [he]
      exact ⟨le_min hx (by norm_num), min_le_right _ _⟩
    · rw [h3 a ha3]; norm_num
    · rw [h4 a ha4]; norm_num
    · obtain ⟨z, hz, he⟩ := h5 a ha5
      rw [he]
      exact ⟨le_min (by positivity) (by norm_num), min_le_right _ _⟩
    · rw [h6 a ha6]; norm_num
    · rw [h7 a ha7]; norm_num
    · have haml2 : a ∈ dml txs := by
        by_cases h20 : 20 < txs.length
        · simpa [h20] using haml
        · simp [h20] at haml
      obtain ⟨s, hs1, hs2, he⟩ := hml a haml2
      rw [he]
      exact ⟨abs_nonneg _, abs_le.2 ⟨by linarith, by linarith⟩⟩

/-- Witness for C6: a batch of 10 transactions where only the time
detector fires; its finding survives deduplication with score `0.7`,
which lies in `[0, 1]`. -/
theorem detect_anomalies_scores_in_unit_interval_witness :
    anomTime ∈ detectAnomalies noFindings noFindings timeFindings
      noFindings noFindings noFindings noFindings noFindings
      (List.range 10) ∧
    0 ≤ anomTime.score ∧ anomTime.score ≤ 1 := by
  have hmem : anomTime ∈ detectAnomalies noFindings noFindings timeFindings
      noFindings noFindings noFindings noFindings noFindings
      (List.range 10) := by
    rw [show detectAnomalies noFindings noFindings timeFindings noFindings
        noFindings noFindings noFindings noFindings (List.range 10) =
        [anomTime] from rfl]
    exact List.mem_singleton.2 rfl
  refine ⟨hmem, ?_⟩
  exact detect_anomalies_scores_in_unit_interval noFindings noFindings
    timeFindings noFindings noFindings noFindings noFindings noFindings
    (List.range 10)
    (by simp [noFindings]) (by simp [noFindings])
    (by
      intro a ha
      have hae : a = anomTime := by simpa [timeFindings] using ha
      rw [hae]
      rfl)
    (by simp [noFindings]) (by simp [noFindings]) (by simp [noFindings])
    (by simp [noFindings]) (by simp [noFindings])
    anomTime hmem

/-! ## C10 — the confidence argument of add_custom_rule is dead -/

/-- C10.  `add_custom_rule` ignores its `confidence` argument: two calls
differing only in the confidence produce identical categorizer states, so
every subsequent categorization agrees; and the pattern stage only ever
attaches its fixed confidence `0.85` to a match (its result confidence is
`0` exactly when nothing matched). -/
theorem add_custom_rule_confidence_dead :
    (∀ (cats : Categories) (pat : List Char → Bool)
        (category subcategory : List Char) (c1 c2 : ℚ),
      addCustomRule cats pat category subcategory c1 =
        addCustomRule cats pat category subcategory c2) ∧
    (∀ (cats : Categories) (pat : List Char → Bool)
        (category subcategory : List Char) (c1 c2 : ℚ)
        (nlp : Option (List Char → CatResult)) (ml : List Char → CatResult)
        (t : CTxn),
      categorizeSingleTransaction
          (addCustomRule cats pat category subcategory c1) nlp ml t =
        categorizeSingleTransaction
          (addCustomRule cats pat category subcategory c2) nlp ml t) ∧
    (∀ (cats : Categories) (text : List Char),
      (patternMatching cats text).2.2 = 0 ∨
      (patternMatching cats text).2.2 = 85/100) := by
  refine ⟨fun _ _ _ _ _ _ => rfl, fun _ _ _ _ _ _ _ _ _ => rfl, ?_⟩
  intro cats text
  unfold patternMatching
  cases h : cats.find? (fun cd => cd.2.patterns.any (fun p => p text)) with
  | none => left; rfl
  | some cd => right; rfl

end WioBank
